import Mathlib

/-!
Verification of the zhihu-download HTML→Markdown extraction pipeline
(`src/main_docs.py` — `DocsParser`, and `src/main_lmsys.py` — `LMSYSParser`).

The HTML documents handled by the parsers are modelled as a tree of element
and text nodes (the shape produced by `BeautifulSoup(…, "html.parser")`).
The BeautifulSoup operations the two parsers use (`find`, `find_all`,
`select_one`, `get_text`, `decompose`, attribute access) are embedded as
pure functions over that tree; in-place mutation (`decompose`,
`img['src'] = …`) becomes a function returning the rewritten tree.

Notes on BeautifulSoup semantics mirrored here:
* `Tag.__bool__` always returns `True` ("A tag is non-None even if it has
  no contents"), so `if tag:` only distinguishes found / not found.
* `find` / `select_one` return the first match in document (preorder)
  order, searching the descendants of the object they are invoked on; on
  the soup itself this covers every node of the document.
* `find_all(list_of_names)` matches TAG NAMES only — a string such as
  `".sidebar"` is compared against tag names and can never match a parsed
  element (CSS punctuation is not interpreted by `find_all`).
* `get_text(strip=True)` concatenates every descendant text node with each
  string stripped of surrounding whitespace.
-/

namespace ZhihuDL

mutual

/-- An HTML DOM node as produced by `BeautifulSoup(…, "html.parser")`:
either a tag element with attributes and children, or a text node. -/
inductive Node where
  | elem (tag : String) (attrs : List (String × String)) (children : NodeList)
  | text (s : String)

/-- A sibling list of DOM nodes (the `contents` of a tag, or the
top level of the parsed document). -/
inductive NodeList where
  | nil
  | cons (n : Node) (l : NodeList)

end

/-- Build a `NodeList` from a `List Node`. -/
def nl : List Node → NodeList
  | [] => .nil
  | n :: rest => .cons n (nl rest)

/-- Element constructor taking its children as a plain list. -/
def Node.el (tag : String) (attrs : List (String × String)) (children : List Node) : Node :=
  .elem tag attrs (nl children)

/-- The children of a node (text nodes have none). -/
def childrenOf : Node → NodeList
  | .elem _ _ cs => cs
  | .text _ => .nil

/-- Attribute lookup on a node (`tag.get(name)`); `none` for text nodes or
missing attributes. -/
def nodeAttr (n : Node) (k : String) : Option String :=
  match n with
  | .elem _ attrs _ => attrs.lookup k
  | .text _ => none

/-- True iff the node is an element with the given tag name. -/
def isTagName (t : String) (n : Node) : Bool :=
  match n with
  | .elem tg _ _ => tg == t
  | .text _ => false

/-- Python whitespace test for `str.strip()` / `\s` (ASCII range). -/
def isSpaceCh (c : Char) : Bool :=
  c == ' ' || c == '\t' || c == '\n' || c == '\r' || c == '\x0b' || c == '\x0c'

/-- Python `str.strip()`: drop whitespace from both ends. -/
def pyStrip (s : String) : String :=
  ⟨((s.data.dropWhile isSpaceCh).reverse.dropWhile isSpaceCh).reverse⟩

mutual

/-- Text-node strings below one node, in document order. -/
def textsN : Node → List String
  | .text s => [s]
  | .elem _ _ cs => textsL cs

/-- Text-node strings below a sibling list, in document order
(the `strings` generator of BeautifulSoup). -/
def textsL : NodeList → List String
  | .nil => []
  | .cons n rest => textsN n ++ textsL rest

end

/-- Python `tag.get_text()`: concatenation of all descendant text. -/
def getText (n : Node) : String :=
  String.join (textsL (childrenOf n))

/-- Python `tag.get_text(strip=True)`: concatenation with each string stripped. -/
def getTextStrip (n : Node) : String :=
  String.join ((textsL (childrenOf n)).map pyStrip)

mutual

/-- Run `findFirstL` on one node: the node itself, else its subtree. -/
def findFirstN (p : Node → Bool) (n : Node) : Option Node :=
  if p n then some n
  else
    match n with
    | .elem _ _ cs => findFirstL p cs
    | .text _ => none

/-- First node of the forest (in preorder / document order) satisfying
`p`; this is the search order of BeautifulSoup `find` / `select_one`. -/
def findFirstL (p : Node → Bool) (l : NodeList) : Option Node :=
  match l with
  | .nil => none
  | .cons n rest =>
      match findFirstN p n with
      | some r => some r
      | none => findFirstL p rest

end

mutual

/-- Run `removeAllL` below one (non-matching, kept) node. -/
def removeAllN (p : Node → Bool) : Node → Node
  | .elem t a cs => .elem t a (removeAllL p cs)
  | .text s => .text s

/-- Net effect of `for e in x.find_all(p): e.decompose()`: every matching
node is excised from the tree together with its subtree; the rest of the
forest is kept, recursively filtered. -/
def removeAllL (p : Node → Bool) : NodeList → NodeList
  | .nil => .nil
  | .cons n rest =>
      if p n then removeAllL p rest
      else .cons (removeAllN p n) (removeAllL p rest)

end

mutual

/-- Run `removeFirstL` inside one node; the flag reports whether the single
removal already happened. -/
def removeFirstN (p : Node → Bool) : Node → Node × Bool
  | .elem t a cs =>
      match removeFirstL p cs with
      | (cs', d) => (.elem t a cs', d)
  | .text s => (.text s, false)

/-- Remove the first node (preorder) satisfying `p` — the effect of
`x.find(p).decompose()`; the traversal stops after the first hit,
matching `find`. -/
def removeFirstL (p : Node → Bool) : NodeList → NodeList × Bool
  | .nil => (.nil, false)
  | .cons n rest =>
      if p n then (rest, true)
      else
        match removeFirstN p n with
        | (n', true) => (.cons n' rest, true)
        | (_, false) =>
            match removeFirstL p rest with
            | (rest', d') => (.cons n rest', d')

end

/-! ## String helpers shared by both parsers -/

/-- Split on runs of whitespace (how `html.parser` tokenises the
multi-valued `class` attribute into the list `tag.get("class")`). -/
def splitWSGo : List Char → List Char → List String
  | [], cur => if cur.isEmpty then [] else [⟨cur.reverse⟩]
  | c :: rest, cur =>
      if isSpaceCh c then
        if cur.isEmpty then splitWSGo rest []
        else ⟨cur.reverse⟩ :: splitWSGo rest []
      else splitWSGo rest (c :: cur)

/-- Whitespace-splitting entry point. -/
def splitWS (s : String) : List String := splitWSGo s.data []

/-- The `class` token list of a node — `tag.get("class")` under
`html.parser` (empty when the attribute is absent). -/
def classTokens (n : Node) : List String :=
  match nodeAttr n "class" with
  | some v => splitWS v
  | none => []

/-- Python truthiness filter on an optional string: both `None` and the
empty string are falsy in an `or` / `if` chain. -/
def tfilter : Option String → Option String
  | some s => if s = "" then none else some s
  | none => none

/-- Python `str.startswith(pre)` (char-list implementation). -/
def strStartsWith (s pre : String) : Bool := pre.data.isPrefixOf s.data

/-- Drop the first `n` characters of a string. -/
def strDrop (s : String) (n : Nat) : String := ⟨s.data.drop n⟩

/-- Split a character list at every occurrence of `sep`
(the semantics of `str.split(sep)` for a one-character separator:
a trailing separator yields a final empty piece). -/
def splitOnCh (sep : Char) : List Char → List (List Char)
  | [] => [[]]
  | c :: rest =>
      if c = sep then [] :: splitOnCh sep rest
      else
        match splitOnCh sep rest with
        | [] => [[c]]
        | l :: ls => (c :: l) :: ls

/-- Python `str.replace(pat, rep)` on char lists: every non-overlapping
occurrence of `p0 :: pt`, scanned left to right, becomes `rep`. Each step
consumes at least one character, so the fuel — initialised to the string
length plus one — never runs out. -/
def pyReplaceGo (p0 : Char) (pt rep : List Char) : Nat → List Char → List Char
  | _, [] => []
  | 0, s => s
  | fuel + 1, c :: rest =>
      if c = p0 ∧ pt.isPrefixOf rest then
        rep ++ pyReplaceGo p0 pt rep fuel (rest.drop pt.length)
      else c :: pyReplaceGo p0 pt rep fuel rest

/-- Python `str.replace(pat, rep)` (for the nonempty patterns the source
uses: `"language-"`, `" | LMSYS Org"`). -/
def pyReplace (s pat rep : String) : String :=
  match pat.data with
  | [] => s
  | p0 :: pt => ⟨pyReplaceGo p0 pt rep.data (s.data.length + 1) s.data⟩

/-! ## CSS selectors used via `soup.select_one` -/

/-- The CSS selector forms appearing in the two parsers' selector lists. -/
inductive Sel where
  | tagName (t : String)
  | cls (c : String)
  | tagCls (t c : String)
  | attrEq (a v : String)
  | tagAttrEq (t a v : String)
  | attrSub (a v : String)

/-- Substring test (`[attr*=value]` semantics). -/
def containsSub (s sub : String) : Bool :=
  (List.range (s.data.length + 1)).any (fun i => sub.data.isPrefixOf (s.data.drop i))

/-- Whether an element node matches one CSS selector. -/
def matchesSel (sel : Sel) (n : Node) : Bool :=
  match n with
  | .text _ => false
  | .elem tg _ _ =>
      match sel with
      | .tagName t => tg == t
      | .cls c => (classTokens n).contains c
      | .tagCls t c => tg == t && (classTokens n).contains c
      | .attrEq a v => nodeAttr n a == some v
      | .tagAttrEq t a v => tg == t && nodeAttr n a == some v
      | .attrSub a v =>
          match nodeAttr n a with
          | some s => containsSub s v
          | none => false

/-- The selector-cascade loop shared by both parsers:
`for selector in selectors: content = soup.select_one(selector); if content: break`.
(A found `Tag` is always truthy in BeautifulSoup, so the loop breaks at the
first selector with any match.) -/
def selectCascade (sels : List Sel) (soup : NodeList) : Option Node :=
  match sels with
  | [] => none
  | s :: rest =>
      match findFirstL (matchesSel s) soup with
      | some n => some n
      | none => selectCascade rest soup

/-- The `content_selectors` list of `DocsParser.extract_content`
(`src/main_docs.py` lines 123–135). -/
def docsContentSelectors : List Sel :=
  [.tagName "article", .tagName "main", .attrEq "role" "main",
   .cls "document", .cls "content", .cls "post-content",
   .cls "markdown-body", .cls "md",
   .tagCls "div" "document", .tagCls "div" "body",
   .tagAttrEq "div" "role" "main"]

/-- The `content_selectors` list of `LMSYSParser.parse_article`
(`src/main_lmsys.py` lines 279–289). -/
def lmsysContentSelectors : List Sel :=
  [.tagName "article", .tagCls "div" "blog-content", .tagCls "div" "post-content",
   .tagCls "div" "content", .tagName "main", .tagCls "div" "prose",
   .attrSub "class" "content", .attrSub "class" "article", .attrSub "class" "post"]

/-! ## Content location and sanitization -/

/-- First list of names passed to `find_all` in the removal loop of
`DocsParser.extract_content` (line 151). `find_all` compares these against
TAG NAMES, so the entries `".sidebar"`, `".navigation"`, `".menu"` —
written as CSS class selectors — can never match a parsed element. -/
def docsStripNamesA : List String :=
  ["nav", "header", "footer", "aside", ".sidebar", ".navigation", ".menu"]

/-- Second removal list of `DocsParser.extract_content` (line 155). -/
def docsStripNamesB : List String := ["script", "style", "link"]

/-- Tag-name membership test used by `find_all([...])`. -/
def tagIn (names : List String) (n : Node) : Bool :=
  match n with
  | .elem tg _ _ => names.contains tg
  | .text _ => false

/-- The two decompose loops of `DocsParser.extract_content` (lines 149–156)
applied to the selected content element: matching descendants are excised. -/
def sanitizeDocs (n : Node) : Node :=
  match n with
  | .text s => .text s
  | .elem t a cs =>
      .elem t a (removeAllL (tagIn docsStripNamesB) (removeAllL (tagIn docsStripNamesA) cs))

/-- Model of `DocsParser.extract_content` (`src/main_docs.py` lines 120–158):
selector cascade, fallback to `soup.find('body')`, then the removal loops;
`none` when the document has neither a selector match nor a `body`. -/
def extract_content (soup : NodeList) : Option Node :=
  let content := selectCascade docsContentSelectors soup
  let content :=
    match content with
    | some c => some c
    | none => findFirstL (isTagName "body") soup
  match content with
  | some c => some (sanitizeDocs c)
  | none => none

/-- The content-location step of `LMSYSParser.parse_article`
(`src/main_lmsys.py` lines 276–303): selector cascade, fallback to
`soup.find("body")`, and `raise Exception("Could not find article content")`
when neither exists (modelled as `Except.error`). -/
def lmsysLocate (soup : NodeList) : Except String Node :=
  let content := selectCascade lmsysContentSelectors soup
  let content :=
    match content with
    | some c => some c
    | none => findFirstL (isTagName "body") soup
  match content with
  | some c => .ok c
  | none => .error "Could not find article content"

/-! ## Title extraction -/

/-- The `soup.find("meta", property="og:title")` match predicate. -/
def isMetaProp (v : String) (n : Node) : Bool :=
  isTagName "meta" n && nodeAttr n "property" == some v

/-- The `soup.find("meta", attrs={"name": v})` match predicate. -/
def isMetaNamed (v : String) (n : Node) : Bool :=
  isTagName "meta" n && nodeAttr n "name" == some v

/-- Open-Graph title arm: the `content` attribute of
`<meta property="og:title">`, when the tag and attribute exist. -/
def armOg (soup : NodeList) : Option String :=
  (findFirstL (isMetaProp "og:title") soup).bind (fun m => nodeAttr m "content")

/-- Twitter-card title arm: the `content` attribute of
`<meta name="twitter:title">`. -/
def armTwitter (soup : NodeList) : Option String :=
  (findFirstL (isMetaNamed "twitter:title") soup).bind (fun m => nodeAttr m "content")

/-- First-`h1` arm: `soup.find("h1").get_text(strip=True)`. -/
def armH1 (soup : NodeList) : Option String :=
  (findFirstL (isTagName "h1") soup).map getTextStrip

/-- Everything before the first `'|'` — `str.split('|')[0]`. -/
def takeBeforePipe (s : String) : String :=
  ⟨s.data.takeWhile (fun c => c ≠ '|')⟩

/-- Docs `title` tag arm:
`soup.find("title").get_text(strip=True).split('|')[0].strip()`. -/
def armTitleDocs (soup : NodeList) : Option String :=
  (findFirstL (isTagName "title") soup).map
    (fun t => pyStrip (takeBeforePipe (getTextStrip t)))

/-- LMSYS `title` tag arm:
`title_tag.get_text(strip=True).replace(" | LMSYS Org", "")`. -/
def armTitleLmsys (soup : NodeList) : Option String :=
  (findFirstL (isTagName "title") soup).map
    (fun t => pyReplace (getTextStrip t) " | LMSYS Org" "")

/-- The raw title of `DocsParser.extract_title` (`src/main_docs.py` lines
102–114): the Python `(a and a.get(...)) or (b and ...) or ... or "Untitled"`
chain, where a falsy (`None` or empty) arm falls through to the next. -/
def docsRawTitle (soup : NodeList) : String :=
  match tfilter (armOg soup) with
  | some t => t
  | none =>
    match tfilter (armTwitter soup) with
    | some t => t
    | none =>
      match tfilter (armH1 soup) with
      | some t => t
      | none =>
        match tfilter (armTitleDocs soup) with
        | some t => t
        | none => "Untitled"

/-- The characters `re.sub(r'[\\/:*?"<>|]', '_', title)` replaces. -/
def illegalChars : List Char := ['\\', '/', ':', '*', '?', '"', '<', '>', '|']

/-- One character of the title sanitization. -/
def subIllegal (c : Char) : Char :=
  if illegalChars.contains c then '_' else c

/-- Model of `DocsParser.extract_title` (`src/main_docs.py` lines 99–118): the
fallback chain, then `re.sub(r'[\\/:*?"<>|]', '_', title)`, then
`title[:100]` (Python slicing counts characters). -/
def extract_title (soup : NodeList) : String :=
  ⟨((docsRawTitle soup).data.map subIllegal).take 100⟩

/-- Truthiness of the running `title` variable in
`LMSYSParser.parse_article`. -/
def pyTruthyO : Option String → Bool
  | some s => ¬ (s = "")
  | none => false

/-- Title extraction of `LMSYSParser.parse_article` (`src/main_lmsys.py`
lines 240–272): four sequential `if not title:` guarded attempts, then
`"Untitled"`. Attempts 1–2 assign only when the meta tag exists and its
`content` is truthy; attempts 3–4 assign whenever the tag exists (possibly
an empty string, which the next guard treats as unset). -/
def lmsysTitle (soup : NodeList) : String :=
  let t1 : Option String :=
    match armOg soup with
    | some c => if c = "" then none else some c
    | none => none
  let t2 : Option String :=
    if pyTruthyO t1 then t1 else
      match armTwitter soup with
      | some c => if c = "" then t1 else some c
      | none => t1
  let t3 : Option String :=
    if pyTruthyO t2 then t2 else
      match findFirstL (isTagName "h1") soup with
      | some h => some (getTextStrip h)
      | none => t2
  let t4 : Option String :=
    if pyTruthyO t3 then t3 else
      match findFirstL (isTagName "title") soup with
      | some t => some (pyReplace (getTextStrip t) " | LMSYS Org" "")
      | none => t3
  match t4 with
  | some s => if s = "" then "Untitled" else s
  | none => "Untitled"

/-- Specification-side description of a fallback chain: the first arm that
is present and non-empty wins; otherwise the literal `"Untitled"`. -/
def firstTruthy : List (Option String) → String
  | [] => "Untitled"
  | some s :: rest => if s = "" then firstTruthy rest else s
  | none :: rest => firstTruthy rest

/-! ## A small backtracking regex engine

`LMSYSParser.extract_author_and_date` matches the first paragraph's text
against `r'^by:\s*(.+?)\s*,\s*([A-Za-z]+\s+\d+,\s*\d{4})'` with `re.match`
(anchored at the start, trailing input allowed). The engine below
implements exactly the constructs of that pattern with Python's
backtracking priorities: greedy quantifiers try longer matches first, lazy
ones shorter first, and a group captures the substring its items consumed
on the first overall success. The recursion depth of the matcher is
bounded by the total number of pattern items (15 for the pattern above,
every recursive call dropping at least one item or entering a group), so
the fuel of 1000 can never be exhausted. -/

/-- Character classes occurring in the pattern. -/
inductive CClass where
  | ws
  | dot
  | alpha
  | digit

/-- Membership in a character class (`\s`, `.`, `[A-Za-z]`, `\d`). -/
def ccMatch : CClass → Char → Bool
  | .ws, c => isSpaceCh c
  | .dot, c => c ≠ '\n'
  | .alpha, c => ('A' ≤ c && c ≤ 'Z') || ('a' ≤ c && c ≤ 'z')
  | .digit, c => '0' ≤ c && c ≤ '9'

/-- One regex item: literal, greedy/lazy star and plus, fixed repetition,
or a capturing group. -/
inductive RItem where
  | lit (c : Char)
  | starG (cc : CClass)
  | starL (cc : CClass)
  | plusG (cc : CClass)
  | plusL (cc : CClass)
  | exactly (cc : CClass) (n : Nat)
  | group (items : List RItem)

/-- First success of `f` over a list of candidate consumption counts
(the candidate order realises the quantifier's priority). -/
def firstSome (f : Nat → Option α) : List Nat → Option α
  | [] => none
  | n :: ns =>
      match f n with
      | some r => some r
      | none => firstSome f ns

/-- Backtracking matcher in continuation-passing style. The continuation
receives the unconsumed input and returns the captures of the remaining
pattern; a group prepends the substring it consumed. -/
def reRun : Nat → List RItem → List Char → (List Char → Option (List String)) → Option (List String)
  | 0, _, _, _ => none
  | _ + 1, [], s, k => k s
  | fuel + 1, .lit c :: r, s, k =>
      match s with
      | [] => none
      | a :: s' => if a = c then reRun fuel r s' k else none
  | fuel + 1, .starG cc :: r, s, k =>
      let m := (s.takeWhile (ccMatch cc)).length
      firstSome (fun i => reRun fuel r (s.drop i) k) ((List.range (m + 1)).reverse)
  | fuel + 1, .starL cc :: r, s, k =>
      let m := (s.takeWhile (ccMatch cc)).length
      firstSome (fun i => reRun fuel r (s.drop i) k) (List.range (m + 1))
  | fuel + 1, .plusG cc :: r, s, k =>
      let m := (s.takeWhile (ccMatch cc)).length
      firstSome (fun i => reRun fuel r (s.drop i) k)
        (((List.range (m + 1)).reverse).filter (fun i => 0 < i))
  | fuel + 1, .plusL cc :: r, s, k =>
      let m := (s.takeWhile (ccMatch cc)).length
      firstSome (fun i => reRun fuel r (s.drop i) k)
        ((List.range (m + 1)).filter (fun i => 0 < i))
  | fuel + 1, .exactly cc n :: r, s, k =>
      if n ≤ (s.takeWhile (ccMatch cc)).length then reRun fuel r (s.drop n) k else none
  | fuel + 1, .group items :: r, s, k =>
      reRun fuel items s (fun s' =>
        match reRun fuel r s' k with
        | some caps => some (String.mk (s.take (s.length - s'.length)) :: caps)
        | none => none)

/-- The items of `r'^by:\s*(.+?)\s*,\s*([A-Za-z]+\s+\d+,\s*\d{4})'`. -/
def byPattern : List RItem :=
  [.lit 'b', .lit 'y', .lit ':', .starG .ws,
   .group [.plusL .dot],
   .starG .ws, .lit ',', .starG .ws,
   .group [.plusG .alpha, .plusG .ws, .plusG .digit, .lit ',', .starG .ws, .exactly .digit 4]]

/-- Python `re.match(by_pattern, text)`: the two captured groups on success. -/
def reMatchBy (s : String) : Option (String × String) :=
  match reRun 1000 byPattern s.data (fun _ => some []) with
  | some (a :: d :: _) => some (a, d)
  | _ => none

/-! ## Author/date extraction (blog variant) -/

/-- Python `content_element.find('p')`: first descendant paragraph. -/
def firstP (region : Node) : Option Node :=
  findFirstL (isTagName "p") (childrenOf region)

/-- Effect of `first_paragraph.decompose()`: the region with its first descendant
paragraph (in the same preorder that `find` uses) excised. -/
def removeFirstP (region : Node) : Node :=
  match region with
  | .text s => .text s
  | .elem t a cs => .elem t a (removeFirstL (isTagName "p") cs).1

/-- Model of `LMSYSParser.extract_author_and_date` (`src/main_lmsys.py` lines
77–99): defaults `("LMSYS Team", None)`; if the first paragraph's stripped
text matches the `by:` pattern, both groups are taken (stripped) and the
paragraph is decomposed. The rewritten region is returned explicitly since
the Python code mutates it in place. -/
def extract_author_and_date (region : Node) : String × Option String × Node :=
  match firstP region with
  | none => ("LMSYS Team", none, region)
  | some p =>
      match reMatchBy (getTextStrip p) with
      | none => ("LMSYS Team", none, region)
      | some (a, d) => (pyStrip a, some (pyStrip d), removeFirstP region)

/-! ## Structural transformation pieces of `LMSYSParser.save_and_transform` -/

/-- The language-class loop on a `code` element (`src/main_lmsys.py` lines
127–132): the first class token starting with `"language-"`, with every
occurrence of `"language-"` deleted (`str.replace`); no other class names
are recognised in this parser. -/
def lmsysLangClass : List String → Option String
  | [] => none
  | cls :: rest =>
      if strStartsWith cls "language-" then some (pyReplace cls "language-" "")
      else lmsysLangClass rest

/-- Code-block conversion for one `pre` element (`src/main_lmsys.py` lines
122–144): the replacement string written over the `pre` when it wraps a
`code` element (`none` when it has no `code` descendant, in which case the
`pre` is left for the generic converter). -/
def preCodeMarkdown (pre : Node) : Option String :=
  match findFirstL (isTagName "code") (childrenOf pre) with
  | none => none
  | some code =>
      let lang := lmsysLangClass (classTokens code)
      let codeText := getText code
      match lang with
      | some l => some ("\n```" ++ l ++ "\n" ++ codeText ++ "\n```\n")
      | none => some ("\n```\n" ++ codeText ++ "\n```\n")

/-- Direct-child list items: `ol.find_all("li", recursive=False)`. -/
def directLis : NodeList → List Node
  | .nil => []
  | .cons n rest =>
      if isTagName "li" n then n :: directLis rest else directLis rest

/-- Ordered-list conversion (`src/main_lmsys.py` lines 197–204): the
`markdown_list` string accumulated by
`for idx, li in enumerate(items, 1): markdown_list += f"{idx}. {text}\n"`. -/
def olMarkdownList (ol : Node) : String :=
  ((directLis (childrenOf ol)).foldl
    (fun (acc : String × Nat) li =>
      (acc.1 ++ (toString acc.2 ++ ". " ++ getTextStrip li ++ "\n"), acc.2 + 1))
    ("", 1)).1

/-! ## URL parsing and joining

Model of the `urllib.parse` behaviour the docs parser relies on
(`urlparse`, `urljoin`), restricted to `scheme://netloc/path` URLs without
query or fragment — the only shapes the parser constructs. `urljoin`
follows CPython's RFC-3986-style algorithm: a reference with a different
scheme or with its own netloc is taken as-is; an absolute-path reference
replaces the base path; otherwise the reference is merged onto the base
path up to its last slash; `.` and `..` segments are resolved, extra
leading `..` being dropped. -/

/-- Characters allowed inside a URL scheme. -/
def isSchemeChar (c : Char) : Bool :=
  c.isAlpha || c.isDigit || c == '+' || c == '-' || c == '.'

/-- Split `"scheme:rest"` when the prefix before `':'` is a valid scheme. -/
def schemeSplit (url : String) : Option (String × String) :=
  let pre := url.data.takeWhile (fun c => c ≠ ':')
  match pre with
  | [] => none
  | c :: _ =>
      if c.isAlpha ∧ pre.all isSchemeChar ∧ pre.length < url.data.length then
        some (⟨pre⟩, ⟨url.data.drop (pre.length + 1)⟩)
      else none

/-- Split the part after the scheme into netloc and path
(`"//netloc/path"` versus a bare path). -/
def splitNetlocPath (s : String) : String × String :=
  if strStartsWith s "//" then
    let rest := strDrop s 2
    let netloc := rest.data.takeWhile (fun c => c ≠ '/')
    (⟨netloc⟩, ⟨rest.data.drop netloc.length⟩)
  else ("", s)

/-- Python `urlparse` restricted to (scheme, netloc, path). -/
def urlParse3 (url : String) : String × String × String :=
  match schemeSplit url with
  | some (sc, rest) =>
      let (nlc, p) := splitNetlocPath rest
      (sc, nlc, p)
  | none =>
      let (nlc, p) := splitNetlocPath url
      ("", nlc, p)

/-- Stack pass of dot-segment resolution: `..` pops, `.` is dropped. -/
def rdsStack : List String → List String → List String
  | [], acc => acc.reverse
  | "." :: rest, acc => rdsStack rest acc
  | ".." :: rest, acc => rdsStack rest (acc.drop 1)
  | seg :: rest, acc => rdsStack rest (seg :: acc)

/-- Resolve `.` and `..` segments of an absolute path, keeping a trailing
slash when the final segment was `.` or `..`. -/
def removeDotSegments (p : String) : String :=
  if strStartsWith p "/" then
    let segs := (splitOnCh '/' (p.data.drop 1)).map (fun cs => (⟨cs⟩ : String))
    let out := rdsStack segs []
    let out :=
      match segs.getLast? with
      | some s => if s = "." ∨ s = ".." then out ++ [""] else out
      | none => out
    "/" ++ String.intercalate "/" out
  else p

/-- RFC 3986 path merge: against an authority with an empty path the
reference is rooted; otherwise it replaces everything after the base
path's last slash. -/
def mergePath (bnetloc bpath ref : String) : String :=
  if bnetloc ≠ "" ∧ bpath = "" then "/" ++ ref
  else ⟨(bpath.data.reverse.dropWhile (fun c => c ≠ '/')).reverse⟩ ++ ref

/-- Python `urllib.parse.urljoin(base, url)` for the URL shapes above. -/
def pyUrljoin (base url : String) : String :=
  if url = "" then base
  else
    let (bsc, bnl, bp) := urlParse3 base
    let (usc, rest) :=
      match schemeSplit url with
      | some (sc, r) => (sc, r)
      | none => (bsc, url)
    if usc ≠ bsc then url
    else
      let (unl, up) := splitNetlocPath rest
      if unl ≠ "" then usc ++ "://" ++ unl ++ up
      else if up = "" then base
      else if strStartsWith up "/" then usc ++ "://" ++ bnl ++ removeDotSegments up
      else usc ++ "://" ++ bnl ++ removeDotSegments (mergePath bnl bp up)

/-- Python `urlparse(url).hostname`: netloc without userinfo or port, lowercased. -/
def hostnameOf (netloc : String) : String :=
  let host :=
    match (splitOnCh '@' netloc.data).getLast? with
    | some h => h
    | none => netloc.data
  let host : List Char := host.takeWhile (fun c => c ≠ ':')
  ⟨host.map Char.toLower⟩

/-- The base URL `f"{urlparse(url).scheme}://{urlparse(url).hostname}"` that
`DocsParser.save_document` passes to `preprocess_content`
(`src/main_docs.py` line 263): the page's ORIGIN, with the path dropped. -/
def originOf (url : String) : String :=
  let (sc, nlc, _) := urlParse3 url
  sc ++ "://" ++ hostnameOf nlc

/-! ## `DocsParser.preprocess_content` -/

/-- Python `tag[key] = value`: overwrite the attribute, or append it. -/
def setAttr (a : List (String × String)) (k v : String) : List (String × String) :=
  match a with
  | [] => [(k, v)]
  | (k', v') :: rest => if k' == k then (k, v) :: rest else (k', v') :: setAttr rest k v

/-- Python `if not img.get('alt'): img['alt'] = ''` (lines 189–190): a falsy
`alt` is normalised to the empty string. -/
def ensureAlt (a : List (String × String)) : List (String × String) :=
  match tfilter (a.lookup "alt") with
  | some _ => a
  | none => setAttr a "alt" ""

/-- The rewriting steps applied to one image once a truthy source was
found (inner body of the loop at `src/main_docs.py` lines 184–190). -/
def imgAttrsCore (base : String) (a : List (String × String)) (src : String) :
    List (String × String) :=
  let a :=
    if strStartsWith src "/" then setAttr a "src" (pyUrljoin base src)
    else if ¬ strStartsWith src "http" then setAttr a "src" (pyUrljoin base src)
    else a
  ensureAlt a

/-- The per-image body of the loop at `src/main_docs.py` lines 181–190:
`src = img.get('src') or img.get('data-src')`; when truthy, a root-relative
or non-`http`-prefixed source is joined onto `base_url`; a falsy `alt`
is normalised to the empty string. -/
def imgAttrs (base : String) (a : List (String × String)) : List (String × String) :=
  match tfilter (a.lookup "src") with
  | some s => imgAttrsCore base a s
  | none =>
      match tfilter (a.lookup "data-src") with
      | some s => imgAttrsCore base a s
      | none => a

/-- The per-anchor body of the loop at `src/main_docs.py` lines 208–212:
a truthy root-relative `href` is joined onto `base_url`. -/
def linkAttrs (base : String) (a : List (String × String)) : List (String × String) :=
  match tfilter (a.lookup "href") with
  | some h => if strStartsWith h "/" then setAttr a "href" (pyUrljoin base h) else a
  | none => a

mutual

/-- Run `mapAttrsL` on one node: rewrite its attributes when the tag matches,
and recurse below. -/
def mapAttrsN (t : String) (f : List (String × String) → List (String × String)) :
    Node → Node
  | .text s => .text s
  | .elem tg a cs => .elem tg (if tg == t then f a else a) (mapAttrsL t f cs)

/-- Apply `f` to the attribute list of every descendant element with the
given tag (`for x in content.find_all(tag): …attribute writes…`). -/
def mapAttrsL (t : String) (f : List (String × String) → List (String × String)) :
    NodeList → NodeList
  | .nil => .nil
  | .cons n rest => .cons (mapAttrsN t f n) (mapAttrsL t f rest)

end

/-- Model of `DocsParser.preprocess_content` (`src/main_docs.py` lines 175–214):
the image loop, then the code-block loop — which only computes the local
`lang_class` and never uses it, so it does not change the tree — then the
anchor loop. -/
def preprocess_content (base : String) (content : Node) : Node :=
  match content with
  | .text s => .text s
  | .elem t a cs =>
      .elem t a (mapAttrsL "a" (linkAttrs base) (mapAttrsL "img" (imgAttrs base) cs))

/-! ## Document assembly -/

/-- The Markdown string built by `DocsParser.save_document`
(`src/main_docs.py` lines 269–275); `description` is the value of
`metadata.get('description')` (default `''`), included only when truthy. -/
def save_document_markdown (title description url markdown_content : String) : String :=
  let full := "# " ++ title ++ "\n\n"
  let full := full ++ "**Source:** " ++ url ++ "\n\n"
  let full := if description ≠ "" then full ++ "> " ++ description ++ "\n\n" else full
  full ++ "---\n\n" ++ markdown_content

/-- The final Markdown string of `LMSYSParser.save_and_transform`
(`src/main_lmsys.py` lines 214–225): the `metadata` line list joined with
newlines, then a blank line and the converted body. -/
def lmsys_markdown (title author : String) (date : Option String)
    (target_link content : String) : String :=
  let metadata := ["# " ++ title, "", "**Author:** " ++ author]
  let metadata :=
    match date with
    | some d => metadata ++ ["**Date:** " ++ d]
    | none => metadata
  let metadata := metadata ++ ["**Link:** " ++ target_link, "", "---"]
  String.intercalate "\n" metadata ++ "\n\n" ++ content

/-! ## Specification-side notions -/

/-- Follows the spec's words for claim C5 (refinement comparison): image
references "resolve against the page's own full URL, not only its origin"
— i.e. standard relative-URL joining against the page URL itself. -/
def spec_resolveAgainstPageUrl (pageUrl src : String) : String :=
  pyUrljoin pageUrl src

/-- Decompose a character list into its newline-separated lines
(the semantics of `str.split('\n')`: a trailing newline yields a final
empty line). Used to state the fixed line layout of the assemblers. -/
def linesOf (cs : List Char) : List (List Char) := splitOnCh '\n' cs

/-- Join a list of lines, each terminated by a newline (the shape of the
assembled Markdown header: every header line, blank lines included, is
followed by `'\n'`, and the body starts right after the last one). -/
def headerJoin : List (List Char) → List Char
  | [] => []
  | l :: rest => l ++ '\n' :: headerJoin rest

/-- The header line sequence of `DocsParser.save_document` as the claim
lays it out: title line, blank, source line, blank, optional quoted
description with its blank, the `---` separator, and the final blank line
before the body. -/
def docsHeaderLines (t desc u : String) : List (List Char) :=
  [("# " ++ t).data, [], ("**Source:** " ++ u).data, []]
    ++ (if desc = "" then [] else [("> " ++ desc).data, []])
    ++ ["---".data, []]

/-- The header line sequence of `LMSYSParser.save_and_transform`: title
line, blank, author line, optional date line, link line, blank, the `---`
separator, and the final blank line before the body. -/
def lmsysHeaderLines (t a : String) (d : Option String) (lk : String) : List (List Char) :=
  [("# " ++ t).data, [], ("**Author:** " ++ a).data]
    ++ (match d with
        | some dd => [("**Date:** " ++ dd).data]
        | none => [])
    ++ [("**Link:** " ++ lk).data, [], "---".data, []]

/-- Specification-side form of the ordered-list conversion: items numbered
`k.`, `k+1.`, … in document order (the claim instantiates `k = 1`, the
counter restarting there for each list). -/
def numberedLines : Nat → List Node → String
  | _, [] => ""
  | k, li :: rest =>
      toString k ++ ". " ++ getTextStrip li ++ "\n" ++ numberedLines (k + 1) rest

/-! ## Concrete documents used as witnesses and counterexamples -/

/-- A parsed fragment with no selector match and no `body` element
(`html.parser` does not synthesise a `body`). -/
def fragSoup : NodeList := nl [.el "p" [] [.text "hi"]]

/-- A plain document body that no content selector matches. -/
def bodyRegion : Node := .el "body" [] [.el "p" [] [.text "hi"]]

/-- The document holding `bodyRegion`. -/
def bodySoup : NodeList := nl [bodyRegion]

/-- A body whose only furniture is a `div` with class `sidebar`. -/
def sidebarRegion : Node :=
  .el "body" [] [.el "div" [("class", "sidebar")] [.text "boo"],
    .el "p" [] [.text "x"]]

/-- A `pre > code` with class `language-python` and text `print(1)`. -/
def cPre3 : Node :=
  .el "pre" [] [.el "code" [("class", "language-python")] [.text "print(1)"]]

/-- A `pre > code` with the bare whitelist class name `python`. -/
def cPreBare3 : Node :=
  .el "pre" [] [.el "code" [("class", "python")] [.text "x = 1"]]

/-- A docs content region wrapping `cPre3`. -/
def cDocsPreDiv : Node := .el "div" [] [cPre3]

/-- A 101-character title containing a path-illegal `/`. -/
def longTitle : String := ⟨'/' :: List.replicate 100 'a'⟩

/-- A document whose Open-Graph title is `longTitle`. -/
def longSoup : NodeList :=
  nl [.el "meta" [("property", "og:title"), ("content", longTitle)] []]

/-- A content region with one image whose `src` is a bare relative path. -/
def imgRegion : Node := .el "div" [] [.el "img" [("src", "a.png")] []]

/-- A blog content region whose first paragraph carries the author/date
pattern, followed by body text. -/
def region4 : Node :=
  .el "div" [] [.el "p" [] [.text "by: Jane Doe, Jan 5, 2025"],
    .el "p" [] [.text "Body text"]]

/-- A blog content region whose first paragraph is `"by Jane Doe"` —
an author with no comma and no parseable date. -/
def region10 : Node := .el "div" [] [.el "p" [] [.text "by Jane Doe"]]

/-! ## Helper lemmas -/

/-- Splitting off one newline-free prefix line. -/
theorem linesOf_append_newline (xs ys : List Char) (h : '\n' ∉ xs) :
    linesOf (xs ++ '\n' :: ys) = xs :: linesOf ys := by
  induction xs with
  | nil => simp [linesOf, splitOnCh]
  | cons c rest ih =>
      have hc : c ≠ '\n' := by
        intro hcn
        exact h (hcn ▸ List.mem_cons_self c rest)
      have hrest : '\n' ∉ rest := fun hm => h (List.mem_cons_of_mem c hm)
      have ih' := ih hrest
      simp only [linesOf] at ih' ⊢
      simp only [List.cons_append, splitOnCh, if_neg hc, List.append_eq, ih']

/-- Writing an attribute makes it readable. -/
theorem lookup_setAttr_self (a : List (String × String)) (k v : String) :
    (setAttr a k v).lookup k = some v := by
  induction a with
  | nil => simp [setAttr, List.lookup]
  | cons kv rest ih =>
      obtain ⟨k', v'⟩ := kv
      by_cases heq : k' = k
      · subst heq
        simp [setAttr, List.lookup]
      · have hbeq : (k' == k) = false := by
          simp [heq]
        have hbeq' : (k == k') = false := by
          simp
          exact fun h => heq h.symm
        simp [setAttr, hbeq, List.lookup, hbeq', ih]

/-- Writing one attribute leaves the others readable unchanged. -/
theorem lookup_setAttr_other (a : List (String × String)) (k k' v : String)
    (h : k ≠ k') :
    (setAttr a k v).lookup k' = a.lookup k' := by
  induction a with
  | nil =>
      have : (k' == k) = false := by
        simp
        exact fun hk => h hk.symm
      simp [setAttr, List.lookup, this]
  | cons kv rest ih =>
      obtain ⟨k₀, v₀⟩ := kv
      by_cases heq : k₀ = k
      · subst heq
        have h1 : (k₀ == k₀) = true := by simp
        have h2 : (k' == k₀) = false := by
          simp
          exact fun hk => h hk.symm
        simp [setAttr, h1, List.lookup, h2]
      · have h1 : (k₀ == k) = false := by simp [heq]
        simp [setAttr, h1, List.lookup, ih]

/-- The alt-normalisation step never touches the `src` attribute. -/
theorem lookup_ensureAlt_src (a : List (String × String)) :
    (ensureAlt a).lookup "src" = a.lookup "src" := by
  unfold ensureAlt
  cases htf : tfilter (a.lookup "alt") with
  | some s => rfl
  | none =>
      exact lookup_setAttr_other a "alt" "src" "" (by decide)

/-- Inversion of the truthiness filter succeeding. -/
theorem tfilter_eq_some (o : Option String) (t : String) :
    tfilter o = some t ↔ o = some t ∧ t ≠ "" := by
  cases o with
  | none => simp [tfilter]
  | some s =>
      by_cases hs : s = ""
      · subst hs
        constructor
        · intro h
          exact absurd h (by simp [tfilter])
        · rintro ⟨h1, h2⟩
          injection h1 with h1'
          exact (h2 h1'.symm).elim
      · constructor
        · intro h
          have hts : tfilter (some s) = some s := by simp [tfilter, hs]
          rw [hts] at h
          injection h with h'
          subst h'
          exact ⟨rfl, hs⟩
        · rintro ⟨h1, h2⟩
          injection h1 with h1'
          subst h1'
          simp [tfilter, hs]

/-- Inversion of the truthiness filter failing. -/
theorem tfilter_eq_none (o : Option String) :
    tfilter o = none ↔ o = none ∨ o = some "" := by
  cases o with
  | none => simp [tfilter]
  | some s =>
      by_cases hs : s = ""
      · simp [tfilter, hs]
      · simp [tfilter, hs]

/-- A truthy head arm wins the fallback chain. -/
theorem firstTruthy_cons_some (o : Option String) (rest : List (Option String))
    (t : String) (h : tfilter o = some t) : firstTruthy (o :: rest) = t := by
  obtain ⟨ho, hne⟩ := (tfilter_eq_some o t).mp h
  subst ho
  simp [firstTruthy, hne]

/-- A falsy head arm falls through to the rest of the chain. -/
theorem firstTruthy_cons_none (o : Option String) (rest : List (Option String))
    (h : tfilter o = none) : firstTruthy (o :: rest) = firstTruthy rest := by
  rcases (tfilter_eq_none o).mp h with ho | ho <;> subst ho <;> simp [firstTruthy]

/-- The ordered-list fold of `save_and_transform`, with explicit
accumulator and counter. -/
theorem ol_fold_go (items : List Node) (acc : String) (k : Nat) :
    (items.foldl
      (fun (a : String × Nat) li =>
        (a.1 ++ (toString a.2 ++ ". " ++ getTextStrip li ++ "\n"), a.2 + 1))
      (acc, k)).1 = acc ++ numberedLines k items := by
  induction items generalizing acc k with
  | nil => simp [numberedLines]
  | cons li rest ih =>
      rw [List.foldl_cons, ih, numberedLines, String.append_assoc]

/-! ## Claim C9 — ordered lists -/

/-- C9: for every ordered list, the emitted `markdown_list` consists of its
direct child `li` items rendered as lines numbered `1.`, `2.`, … in
document order, the counter restarting at 1 for this list (the fold starts
at 1 on every `ol`), regardless of any attributes — numeric markers
included — present on the list element in the source HTML. -/
theorem c9_ordered_list_numbering (attrs : List (String × String)) (cs : NodeList) :
    olMarkdownList (.elem "ol" attrs cs) = numberedLines 1 (directLis cs) := by
  unfold olMarkdownList
  rw [show childrenOf (.elem "ol" attrs cs) = cs from rfl, ol_fold_go]
  exact String.empty_append _

/-! ## Claim C7 — sanitizer and class markers -/

/-- C7 (code evaluation at the failing input): the sanitizer of
`DocsParser.extract_content` leaves a `div` with class `sidebar` in place —
`find_all(['nav', …, '.sidebar', '.navigation', '.menu'])` compares the
strings against tag names, so the CSS-style entries never match and
elements carrying sidebar/menu/navigation class markers are NOT removed,
contrary to the claim (and to the intent visible in the source list). -/
theorem c7_sidebar_class_not_removed :
    sanitizeDocs sidebarRegion = sidebarRegion
    ∧ extract_content (nl [sidebarRegion]) = some sidebarRegion :=
  ⟨rfl, rfl⟩

/-! ## Claim C1 — body fallback of the content-location step -/

/-- C1 (counterexample): a parsed fragment with no selector match and no
`body` element. The docs variant returns no region at all (so no Markdown
document is produced: `save_document` returns `None` at its first line),
and the blog variant raises `Exception("Could not find article content")`
— refuting "returns the document's body element and never raises". -/
theorem c1_counterexample_no_body :
    extract_content fragSoup = none
    ∧ lmsysLocate fragSoup = .error "Could not find article content" :=
  ⟨rfl, rfl⟩

/-- C1 (amended): when no content selector of either variant matches but
the document does have a `body` element, the content-location step of both
parsers returns that body (the docs variant after its removal loops) and
no exception is raised. -/
theorem c1_body_fallback (soup : NodeList) (b : Node)
    (h1 : selectCascade docsContentSelectors soup = none)
    (h2 : selectCascade lmsysContentSelectors soup = none)
    (h3 : findFirstL (isTagName "body") soup = some b) :
    extract_content soup = some (sanitizeDocs b)
    ∧ lmsysLocate soup = .ok b := by
  constructor
  · unfold extract_content
    rw [h1, h3]
  · unfold lmsysLocate
    rw [h2, h3]

/-- C1 (witness): the fallback theorem applied to a concrete document with
an unmatched `body`. -/
theorem c1_body_fallback_witness :
    extract_content bodySoup = some (sanitizeDocs bodyRegion)
    ∧ lmsysLocate bodySoup = .ok bodyRegion :=
  c1_body_fallback bodySoup bodyRegion rfl rfl rfl

/-! ## Claim C3 — code-block conversion -/

/-- C3 (counterexample): the replacement the blog variant writes for a
`pre > code.language-python` block with text `print(1)` is the fenced
block SURROUNDED BY single newlines, `"\n```python\nprint(1)\n```\n"`,
not exactly ``` ```python\nprint(1)\n``` ```; a bare whitelist class name
(`python`) yields an untagged fence in this — the only emitting — variant;
and the documentation variant's `preprocess_content` leaves the `pre`
subtree unchanged (its whitelist language detection computes an unused
local), so no fence is emitted there at all. -/
theorem c3_counterexample_fence_shape :
    preCodeMarkdown cPre3 = some "\n```python\nprint(1)\n```\n"
    ∧ ("\n```python\nprint(1)\n```\n" : String) ≠ "```python\nprint(1)\n```"
    ∧ preCodeMarkdown cPreBare3 = some "\n```\nx = 1\n```\n"
    ∧ preprocess_content "https://x.org" cDocsPreDiv = cDocsPreDiv :=
  ⟨rfl, by decide, rfl, rfl⟩

/-- C3 (amended): for every `pre` wrapping a `code` element, the blog
variant emits a fence surrounded by one leading and one trailing newline;
the language tag is read from a `language-<lang>` class token (here
`language-python`, regardless of further attributes), the code text is
preserved verbatim, and the fence is untagged when no `language-` token is
present — including for a bare whitelist class name such as `python`. -/
theorem c3_fence_emission (pa ca : List (String × String)) (t : String) :
    preCodeMarkdown (.el "pre" pa [.el "code" (("class", "language-python") :: ca) [.text t]])
      = some ("\n```python\n" ++ t ++ "\n```\n")
    ∧ preCodeMarkdown (.el "pre" pa [.el "code" [("class", "python")] [.text t]])
      = some ("\n```\n" ++ t ++ "\n```\n")
    ∧ preCodeMarkdown (.el "pre" pa [.el "code" [] [.text t]])
      = some ("\n```\n" ++ t ++ "\n```\n") :=
  ⟨rfl, rfl, rfl⟩

/-! ## Claim C4 — author/date extraction on the first paragraph -/

/-- C4: when the content region has a first paragraph, a full match of the
single leading `by:` pattern populates both author and date from the two
regex groups (stripped) and decomposes that paragraph from the region; any
non-match — including partial matches, since the pattern is one regular
expression requiring both groups — leaves the site-identity sentinel
`"LMSYS Team"` and no date. -/
theorem c4_author_date_extraction (region p : Node) (hp : firstP region = some p) :
    (∀ a d, reMatchBy (getTextStrip p) = some (a, d) →
      extract_author_and_date region = (pyStrip a, some (pyStrip d), removeFirstP region))
    ∧ (reMatchBy (getTextStrip p) = none →
      extract_author_and_date region = ("LMSYS Team", none, region)) := by
  constructor
  · intro a d hm
    unfold extract_author_and_date
    simp only [hp, hm]
  · intro hm
    unfold extract_author_and_date
    simp only [hp, hm]

/-- C4 (witness): a first paragraph of exactly `"by: Jane Doe, Jan 5, 2025"`
yields author `"Jane Doe"`, date `"Jan 5, 2025"`, and the region keeps only
the body paragraph. -/
theorem c4_author_date_extraction_witness :
    extract_author_and_date region4
      = ("Jane Doe", some "Jan 5, 2025", .el "div" [] [.el "p" [] [.text "Body text"]]) :=
  (c4_author_date_extraction region4 (.el "p" [] [.text "by: Jane Doe, Jan 5, 2025"]) rfl).1
    "Jane Doe" "Jan 5, 2025" rfl

/-! ## Claim C10 — frame effect on non-match -/

/-- C10: when the region has no paragraph at all, or its first paragraph's
text does not match the `by:` pattern, `extract_author_and_date` returns
the defaults (`"LMSYS Team"`, no date) and the returned region is exactly
the input region — nothing is decomposed. -/
theorem c10_no_mutation_on_nonmatch (region : Node) :
    (firstP region = none →
      extract_author_and_date region = ("LMSYS Team", none, region))
    ∧ (∀ p, firstP region = some p → reMatchBy (getTextStrip p) = none →
      extract_author_and_date region = ("LMSYS Team", none, region)) := by
  constructor
  · intro h
    unfold extract_author_and_date
    simp only [h]
  · intro p hp hm
    unfold extract_author_and_date
    simp only [hp, hm]

/-- C10 (witness): a first paragraph of `"by Jane Doe"` (no comma, no date)
is a full non-match: defaults are returned and the region is unchanged. -/
theorem c10_no_mutation_on_nonmatch_witness :
    extract_author_and_date region10 = ("LMSYS Team", none, region10) :=
  (c10_no_mutation_on_nonmatch region10).2 (.el "p" [] [.text "by Jane Doe"]) rfl rfl

/-! ## Claim C2 — title truncation and sanitization -/

/-- C2 (counterexample): the blog variant does not truncate or sanitise
the extracted title — a 101-character Open-Graph title containing `/`
comes through `LMSYSParser.parse_article` verbatim (filename cleaning is
delegated to the external `get_valid_filename`, and the `# {title}` header
uses the raw title). -/
theorem c2_counterexample_lmsys_raw_title :
    (lmsysTitle longSoup).length = 101 ∧ '/' ∈ (lmsysTitle longSoup).data := by
  constructor
  · decide
  · decide

/-- C2 (amended): in the documentation variant, the extracted title is at
most 100 characters, exactly 100 when the raw title exceeded 100, and
contains none of the path-illegal characters, every occurrence having been
replaced by `_` before truncation. -/
theorem c2_docs_title_sanitized (soup : NodeList) :
    (extract_title soup).length ≤ 100
    ∧ (100 < (docsRawTitle soup).length → (extract_title soup).length = 100)
    ∧ ∀ c, c ∈ (extract_title soup).data → c ∉ illegalChars := by
  refine ⟨?_, ?_, ?_⟩
  · show (((docsRawTitle soup).data.map subIllegal).take 100).length ≤ 100
    rw [List.length_take]
    exact min_le_left _ _
  · intro h
    show (((docsRawTitle soup).data.map subIllegal).take 100).length = 100
    rw [List.length_take, List.length_map]
    have : (docsRawTitle soup).length = (docsRawTitle soup).data.length := rfl
    omega
  · intro c hc
    have hc' : c ∈ (docsRawTitle soup).data.map subIllegal := List.mem_of_mem_take hc
    obtain ⟨b, hb, hbc⟩ := List.mem_map.mp hc'
    subst hbc
    unfold subIllegal
    by_cases hbi : illegalChars.contains b = true
    · rw [if_pos hbi]
      decide
    · rw [if_neg hbi]
      intro hmem
      exact hbi (List.elem_eq_true_of_mem hmem)

/-- C2 (witness): the documentation variant applied to the 101-character
`/`-bearing title gives a 100-character result without `/`. -/
theorem c2_docs_title_sanitized_witness :
    (extract_title longSoup).length = 100 ∧ '/' ∉ (extract_title longSoup).data := by
  constructor
  · exact (c2_docs_title_sanitized longSoup).2.1 (by decide)
  · intro hmem
    exact (c2_docs_title_sanitized longSoup).2.2 '/' hmem (by decide)

/-! ## Claim C5 — image reference resolution -/

/-- C5 (counterexample): for a page at `https://x.org/docs/page.html` with
an image `src="a.png"`, the documentation variant joins against the ORIGIN
(`save_document` passes `scheme://hostname`), producing
`https://x.org/a.png` — while joining against the page's own full URL, as
the claim states, would give `https://x.org/docs/a.png`. -/
theorem c5_counterexample_origin_not_page_url :
    preprocess_content (originOf "https://x.org/docs/page.html") imgRegion
      = .el "div" [] [.el "img" [("src", "https://x.org/a.png"), ("alt", "")] []]
    ∧ spec_resolveAgainstPageUrl "https://x.org/docs/page.html" "a.png"
        = "https://x.org/docs/a.png"
    ∧ ("https://x.org/a.png" : String) ≠ "https://x.org/docs/a.png" :=
  ⟨rfl, rfl, by decide⟩

/-- C5 (amended): every image whose `src` is root-relative or not
`http`-prefixed is rewritten by standard relative-URL joining against the
page's ORIGIN (`scheme://hostname`, the path dropped) — so `/img/a.png`
resolves below the origin as claimed, but `../x` and bare relative paths
resolve against the origin too, not against the page's full URL. -/
theorem c5_img_resolved_against_origin (url s : String)
    (attrs pa : List (String × String))
    (h1 : attrs.lookup "src" = some s) (h2 : s ≠ "")
    (h3 : strStartsWith s "/" = true ∨ strStartsWith s "http" = false) :
    (imgAttrs (originOf url) attrs).lookup "src"
        = some (pyUrljoin (originOf url) s)
    ∧ preprocess_content (originOf url) (.el "div" pa [.el "img" attrs []])
        = .el "div" pa [.el "img" (imgAttrs (originOf url) attrs) []] := by
  constructor
  · unfold imgAttrs
    simp only [h1, tfilter, if_neg h2]
    unfold imgAttrsCore
    rcases h3 with h3 | h3
    · rw [if_pos h3, lookup_ensureAlt_src, lookup_setAttr_self]
    · by_cases hsl : strStartsWith s "/" = true
      · rw [if_pos hsl, lookup_ensureAlt_src, lookup_setAttr_self]
      · rw [if_neg hsl, if_pos (by rw [h3]; decide), lookup_ensureAlt_src,
          lookup_setAttr_self]
  · rfl

/-- C5 (witness): `src="/img/a.png"` with document origin `https://x.org`
resolves to `https://x.org/img/a.png`. -/
theorem c5_img_resolved_witness :
    (imgAttrs (originOf "https://x.org/page.html") [("src", "/img/a.png")]).lookup "src"
      = some "https://x.org/img/a.png" :=
  (c5_img_resolved_against_origin "https://x.org/page.html" "/img/a.png"
    [("src", "/img/a.png")] [] rfl (by decide) (Or.inl rfl)).1

/-! ## Claim C6 — title fallback chain -/

/-- C6: both variants' title extraction evaluates the fallback chain top
to bottom and returns the first truthy (present and non-empty) result —
Open-Graph meta content, else Twitter-card meta content, else the first
`h1` text, else the `title` element's text with the site-name suffix
stripped (`split('|')[0].strip()` in the docs variant,
`.replace(" | LMSYS Org", "")` in the blog variant), else `"Untitled"` —
and the extracted title is never the empty string. -/
theorem c6_title_fallback_chain (soup : NodeList) :
    docsRawTitle soup
        = firstTruthy [armOg soup, armTwitter soup, armH1 soup, armTitleDocs soup]
    ∧ docsRawTitle soup ≠ ""
    ∧ extract_title soup ≠ ""
    ∧ lmsysTitle soup
        = firstTruthy [armOg soup, armTwitter soup, armH1 soup, armTitleLmsys soup]
    ∧ lmsysTitle soup ≠ "" := by
  have hdocs : docsRawTitle soup
      = firstTruthy [armOg soup, armTwitter soup, armH1 soup, armTitleDocs soup]
      ∧ docsRawTitle soup ≠ "" := by
    unfold docsRawTitle
    cases h1 : tfilter (armOg soup) with
    | some t =>
        rw [firstTruthy_cons_some _ _ _ h1]
        exact ⟨rfl, ((tfilter_eq_some _ _).mp h1).2⟩
    | none =>
        rw [firstTruthy_cons_none _ _ h1]
        cases h2 : tfilter (armTwitter soup) with
        | some t =>
            rw [firstTruthy_cons_some _ _ _ h2]
            exact ⟨rfl, ((tfilter_eq_some _ _).mp h2).2⟩
        | none =>
            rw [firstTruthy_cons_none _ _ h2]
            cases h3 : tfilter (armH1 soup) with
            | some t =>
                rw [firstTruthy_cons_some _ _ _ h3]
                exact ⟨rfl, ((tfilter_eq_some _ _).mp h3).2⟩
            | none =>
                rw [firstTruthy_cons_none _ _ h3]
                cases h4 : tfilter (armTitleDocs soup) with
                | some t =>
                    rw [firstTruthy_cons_some _ _ _ h4]
                    exact ⟨rfl, ((tfilter_eq_some _ _).mp h4).2⟩
                | none =>
                    rw [firstTruthy_cons_none _ _ h4]
                    exact ⟨rfl, by decide⟩
  have hex : extract_title soup ≠ "" := by
    intro h
    have hd : ((docsRawTitle soup).data.map subIllegal).take 100 = [] :=
      congrArg String.data h
    rcases List.take_eq_nil_iff.mp hd with h100 | hmap
    · exact absurd h100 (by decide)
    · have hdata : (docsRawTitle soup).data = [] := List.map_eq_nil_iff.mp hmap
      exact hdocs.2 (String.ext (by rw [hdata]))
  have hlm : lmsysTitle soup
      = firstTruthy [armOg soup, armTwitter soup, armH1 soup, armTitleLmsys soup]
      ∧ lmsysTitle soup ≠ "" := by
    unfold lmsysTitle
    cases h1 : tfilter (armOg soup) with
    | some t =>
        obtain ⟨hog, hne⟩ := (tfilter_eq_some _ _).mp h1
        rw [firstTruthy_cons_some _ _ _ h1]
        simp only [hog, if_neg hne, pyTruthyO, decide_not, hne, decide_False,
          Bool.not_false, if_pos, if_neg]
        simp [pyTruthyO, hne]
    | none =>
        rw [firstTruthy_cons_none _ _ h1]
        have ht1 : (match armOg soup with
            | some c => if c = "" then none else some c
            | none => (none : Option String)) = none := by
          rcases (tfilter_eq_none _).mp h1 with ho | ho <;> simp [ho]
        rw [ht1]
        simp only [pyTruthyO, Bool.false_eq_true, if_false]
        cases h2 : tfilter (armTwitter soup) with
        | some t =>
            obtain ⟨htw, hne⟩ := (tfilter_eq_some _ _).mp h2
            rw [firstTruthy_cons_some _ _ _ h2]
            simp [htw, hne, pyTruthyO]
        | none =>
            rw [firstTruthy_cons_none _ _ h2]
            have ht2 : (match armTwitter soup with
                | some c => if c = "" then (none : Option String) else some c
                | none => none) = none := by
              rcases (tfilter_eq_none _).mp h2 with ho | ho <;> simp [ho]
            rw [ht2]
            simp only [pyTruthyO, Bool.false_eq_true, if_false]
            cases hh : findFirstL (isTagName "h1") soup with
            | some h1el =>
                have harm3 : armH1 soup = some (getTextStrip h1el) := by
                  simp [armH1, hh]
                by_cases hs3 : getTextStrip h1el = ""
                · have h3n : tfilter (armH1 soup) = none := by
                    simp [harm3, tfilter, hs3]
                  rw [firstTruthy_cons_none _ _ h3n]
                  simp only [hh, hs3, pyTruthyO]
                  cases hft : findFirstL (isTagName "title") soup with
                  | some tt =>
                      have harm4 : armTitleLmsys soup
                          = some (pyReplace (getTextStrip tt) " | LMSYS Org" "") := by
                        simp [armTitleLmsys, hft]
                      by_cases hs4 : pyReplace (getTextStrip tt) " | LMSYS Org" "" = ""
                      · have h4n : tfilter (armTitleLmsys soup) = none := by
                          simp [harm4, tfilter, hs4]
                        rw [firstTruthy_cons_none _ _ h4n]
                        simp [hs4, firstTruthy]
                      · have h4s : tfilter (armTitleLmsys soup)
                            = some (pyReplace (getTextStrip tt) " | LMSYS Org" "") := by
                          simp [harm4, tfilter, hs4]
                        rw [firstTruthy_cons_some _ _ _ h4s]
                        simp [hs4]
                  | none =>
                      have h4n : tfilter (armTitleLmsys soup) = none := by
                        simp [armTitleLmsys, hft, tfilter]
                      rw [firstTruthy_cons_none _ _ h4n]
                      simp [firstTruthy]
                · have h3s : tfilter (armH1 soup) = some (getTextStrip h1el) := by
                    simp [harm3, tfilter, hs3]
                  rw [firstTruthy_cons_some _ _ _ h3s]
                  simp [hh, hs3, pyTruthyO]
            | none =>
                have h3n : tfilter (armH1 soup) = none := by
                  simp [armH1, hh, tfilter]
                rw [firstTruthy_cons_none _ _ h3n]
                simp only [hh, pyTruthyO, Bool.false_eq_true, if_false]
                cases hft : findFirstL (isTagName "title") soup with
                | some tt =>
                    have harm4 : armTitleLmsys soup
                        = some (pyReplace (getTextStrip tt) " | LMSYS Org" "") := by
                      simp [armTitleLmsys, hft]
                    by_cases hs4 : pyReplace (getTextStrip tt) " | LMSYS Org" "" = ""
                    · have h4n : tfilter (armTitleLmsys soup) = none := by
                        simp [harm4, tfilter, hs4]
                      rw [firstTruthy_cons_none _ _ h4n]
                      simp [hs4, firstTruthy]
                    · have h4s : tfilter (armTitleLmsys soup)
                          = some (pyReplace (getTextStrip tt) " | LMSYS Org" "") := by
                        simp [harm4, tfilter, hs4]
                      rw [firstTruthy_cons_some _ _ _ h4s]
                      simp [hs4]
                | none =>
                    have h4n : tfilter (armTitleLmsys soup) = none := by
                      simp [armTitleLmsys, hft, tfilter]
                    rw [firstTruthy_cons_none _ _ h4n]
                    simp [firstTruthy]
  exact ⟨hdocs.1, hdocs.2, hex, hlm.1, hlm.2⟩

/-! ## Claim C8 — assembled document layout -/

/-- Concatenating a newline-free prefix keeps `'\n'` out. -/
theorem nin_data_append (p : String) (v : List Char)
    (hp : '\n' ∉ p.data) (hv : '\n' ∉ v) : '\n' ∉ p.data ++ v := by
  intro hm
  rcases List.mem_append.mp hm with hm | hm
  · exact hp hm
  · exact hv hm

/-- A newline-terminated header of newline-free lines splits back into
exactly those lines, followed by the body's lines. -/
theorem linesOf_headerJoin (ls : List (List Char)) (rest : List Char)
    (h : ∀ l ∈ ls, '\n' ∉ l) :
    linesOf (headerJoin ls ++ rest) = ls ++ linesOf rest := by
  induction ls with
  | nil => simp [headerJoin]
  | cons l ls ih =>
      have hl : '\n' ∉ l := h l (List.mem_cons_self l ls)
      have hls : ∀ x ∈ ls, '\n' ∉ x := fun x hx => h x (List.mem_cons_of_mem l hx)
      simp only [headerJoin, List.append_assoc, List.cons_append]
      rw [linesOf_append_newline _ _ hl, ih hls]

/-- C8: both assemblers produce exactly the claimed fixed layout — the
header is the claimed line sequence, every line newline-terminated, the
body following immediately after; splitting the result at newlines
recovers precisely those header lines (title, blank, source —
respectively author/date/link — optional quoted description, the literal
`---` separator, a blank line) and then the body's lines, with the `---`
separator present even when every optional field is absent (see
`docsHeaderLines` / `lmsysHeaderLines`: their tails `["---", ""]` are
unconditional). -/
theorem c8_markdown_layout (t desc u a lk body : String) (d : Option String)
    (ht : '\n' ∉ t.data) (hdesc : '\n' ∉ desc.data) (hu : '\n' ∉ u.data)
    (ha : '\n' ∉ a.data) (hlk : '\n' ∉ lk.data)
    (hd : ∀ x, d = some x → '\n' ∉ x.data) :
    (save_document_markdown t desc u body).data
        = headerJoin (docsHeaderLines t desc u) ++ body.data
    ∧ linesOf (save_document_markdown t desc u body).data
        = docsHeaderLines t desc u ++ linesOf body.data
    ∧ (lmsys_markdown t a d lk body).data
        = headerJoin (lmsysHeaderLines t a d lk) ++ body.data
    ∧ linesOf (lmsys_markdown t a d lk body).data
        = lmsysHeaderLines t a d lk ++ linesOf body.data := by
  have e1 : ("\n\n" : String).data = '\n' :: '\n' :: ([] : List Char) := rfl
  have e2 : ("---\n\n" : String).data
      = '-' :: '-' :: '-' :: '\n' :: '\n' :: ([] : List Char) := rfl
  have e3 : ("---" : String).data = '-' :: '-' :: '-' :: ([] : List Char) := rfl
  have e4 : ("\n" : String).data = '\n' :: ([] : List Char) := rfl
  have hdocs_data : (save_document_markdown t desc u body).data
      = headerJoin (docsHeaderLines t desc u) ++ body.data := by
    by_cases hde : desc = ""
    · simp [save_document_markdown, docsHeaderLines, headerJoin, hde,
        String.data_append, e1, e2, e3, List.append_assoc]
    · simp [save_document_markdown, docsHeaderLines, headerJoin, hde,
        String.data_append, e1, e2, e3, List.append_assoc]
  have hlm_data : (lmsys_markdown t a d lk body).data
      = headerJoin (lmsysHeaderLines t a d lk) ++ body.data := by
    cases d with
    | none =>
        simp [lmsys_markdown, lmsysHeaderLines, headerJoin, String.intercalate,
          String.intercalate.go, String.data_append, e1, e3, e4, List.append_assoc]
    | some dd =>
        simp [lmsys_markdown, lmsysHeaderLines, headerJoin, String.intercalate,
          String.intercalate.go, String.data_append, e1, e3, e4, List.append_assoc]
  have hmemd : ∀ x ∈ docsHeaderLines t desc u, '\n' ∉ x := by
    intro x hx
    by_cases hde : desc = ""
    · simp [docsHeaderLines, hde] at hx
      rcases hx with rfl | rfl | rfl | rfl | rfl | rfl
      · exact nin_data_append "# " t.data (by decide) ht
      · simp
      · exact nin_data_append "**Source:** " u.data (by decide) hu
      · simp
      · decide
      · simp
    · simp [docsHeaderLines, hde] at hx
      rcases hx with rfl | rfl | rfl | rfl | rfl | rfl | rfl | rfl
      · exact nin_data_append "# " t.data (by decide) ht
      · simp
      · exact nin_data_append "**Source:** " u.data (by decide) hu
      · simp
      · exact nin_data_append "> " desc.data (by decide) hdesc
      · simp
      · decide
      · simp
  have hmeml : ∀ x ∈ lmsysHeaderLines t a d lk, '\n' ∉ x := by
    intro x hx
    cases d with
    | none =>
        simp [lmsysHeaderLines] at hx
        rcases hx with rfl | rfl | rfl | rfl | rfl | rfl | rfl
        · exact nin_data_append "# " t.data (by decide) ht
        · simp
        · exact nin_data_append "**Author:** " a.data (by decide) ha
        · exact nin_data_append "**Link:** " lk.data (by decide) hlk
        · simp
        · decide
        · simp
    | some dd =>
        simp [lmsysHeaderLines] at hx
        rcases hx with rfl | rfl | rfl | rfl | rfl | rfl | rfl | rfl
        · exact nin_data_append "# " t.data (by decide) ht
        · simp
        · exact nin_data_append "**Author:** " a.data (by decide) ha
        · exact nin_data_append "**Date:** " dd.data (by decide) (hd dd rfl)
        · exact nin_data_append "**Link:** " lk.data (by decide) hlk
        · simp
        · decide
        · simp
  refine ⟨hdocs_data, ?_, hlm_data, ?_⟩
  · rw [hdocs_data, linesOf_headerJoin _ _ hmemd]
  · rw [hlm_data, linesOf_headerJoin _ _ hmeml]

/-- C8 (witness): the layout theorem at concrete one-character fields with
no description and no date — the `---` separator line is still present. -/
theorem c8_markdown_layout_witness :
    (save_document_markdown "T" "" "U" "B").data
        = headerJoin (docsHeaderLines "T" "" "U") ++ ("B" : String).data
    ∧ linesOf (save_document_markdown "T" "" "U" "B").data
        = docsHeaderLines "T" "" "U" ++ linesOf ("B" : String).data
    ∧ (lmsys_markdown "T" "A" none "L" "B").data
        = headerJoin (lmsysHeaderLines "T" "A" none "L") ++ ("B" : String).data
    ∧ linesOf (lmsys_markdown "T" "A" none "L" "B").data
        = lmsysHeaderLines "T" "A" none "L" ++ linesOf ("B" : String).data :=
  c8_markdown_layout "T" "" "U" "A" "L" "B" none (by decide) (by decide) (by decide)
    (by decide) (by decide) (fun x hx => nomatch hx)

end ZhihuDL
